import Mathlib

/-!
Shallow embedding of `src/mpp/codec/mpp_buf_slot.cpp` (Rockchip mpp buffer
slot manager) and proofs about its claims.

Modelling conventions:
* `RK_U32` fields are `Nat`; all status values stay below `2^32` because the
  code only ever ORs in the four flag constants, so `x & ~b` on a 32-bit
  unsigned is `x &&& (0xFFFFFFFF - b)`.
* `MppBuffer` handles are opaque `Nat` identifiers.  `mpp_buffer_put` and
  `mpp_buffer_inc_ref` are externally observable events, recorded in the
  `released` / `increfs` logs of the pool state (`mpp_buffer_put(NULL)` is a
  no-op and records nothing).
* The slot array is a `List MppBufSlotEntry`; the `NULL` array of a freshly
  initialized pool is `Option.none`.  The intrusive `list_head` display list
  is modelled as the list of queued slot indices (each entry owns one list
  node, so an index occurs at most once; `list_del_init` is removal,
  `list_add_tail` is appending).
* A failed `mpp_assert` (debug abort / undefined behaviour in release) and
  out-of-bounds accesses are modelled as `Option.none` results.
-/

/-- Modelled from the spec: `MppFrameImpl` lives in `mpp_frame_impl.h`, which
is not part of this snapshot.  Per the spec a frame handle is "buffer binding
+ metadata; supports value-copy of metadata, get/set of its Buffer", so it is
a metadata word plus an optional bound buffer handle. -/
structure MppFrameImpl where
  meta : Nat
  buffer : Option Nat
  deriving Repr, DecidableEq

/-- Modelled from the spec: `mpp_frame_init` allocates a fresh zeroed frame
handle with no buffer bound. -/
def mpp_frame_init_frame : MppFrameImpl :=
  { meta := 0, buffer := none }

/-- Modelled from the spec: the value-copy performed by
`memcpy(slot->frame, frame, sizeof(MppFrameImpl))` copies the caller-supplied
metadata into the destination handle; the spec states "copy caller-supplied
metadata into it by value (buffer binding is separate)". -/
def frame_copy_meta (dst src : MppFrameImpl) : MppFrameImpl :=
  { dst with meta := src.meta }

/-- Modelled from the spec: `mpp_frame_get_buffer`. -/
def mpp_frame_get_buffer (f : MppFrameImpl) : Option Nat :=
  f.buffer

/-- Modelled from the spec: `mpp_frame_set_buffer`. -/
def mpp_frame_set_buffer (f : MppFrameImpl) (b : Nat) : MppFrameImpl :=
  { f with buffer := some b }

def MPP_SLOT_UNUSED : Nat := 0x00000000
def MPP_SLOT_USED : Nat := 0x00000001
def MPP_SLOT_USED_AS_REF : Nat := 0x00000002
def MPP_SLOT_USED_AS_DECODING : Nat := 0x00000004
def MPP_SLOT_USED_AS_DISPLAY : Nat := 0x00000008

/-- Clearing a flag bit: `status &= ~bit` on `RK_U32`. -/
def clrFlag (s b : Nat) : Nat := s &&& (0xFFFFFFFF - b)

/-- `MppBufSlotEntry` (the `list_head` node is represented by membership in
the pool's display queue instead of an embedded field). -/
structure MppBufSlotEntry where
  status : Nat
  index : Nat
  frame : Option MppFrameImpl
  deriving Repr, DecidableEq

/-- `MppBufSlotsImpl`.  The mutex only serializes calls and has no state of
its own; `released` and `increfs` log the buffer reference-count events. -/
structure MppBufSlotsImpl where
  count : Nat
  size : Nat
  decode_count : Nat
  display_count : Nat
  info_changed : Nat
  new_count : Nat
  new_size : Nat
  output : Nat
  display : List Nat
  slots : Option (List MppBufSlotEntry)
  released : List Nat
  increfs : List Nat
  deriving Repr, DecidableEq

/-- Update position `i` of a list in place. -/
def listUpdate (l : List α) (i : Nat) (f : α → α) : List α :=
  match l, i with
  | [], _ => []
  | x :: xs, 0 => f x :: xs
  | x :: xs, n + 1 => x :: listUpdate xs n f

/-- One fresh entry as produced by `init_slot_entry`:
status `0`, position as index, `frame = NULL`. -/
def freshEntry (i : Nat) : MppBufSlotEntry :=
  { status := 0, index := i, frame := none }

/-- `init_slot_entry(slots, 0, count)` applied to a fresh allocation. -/
def init_slot_list (count : Nat) : List MppBufSlotEntry :=
  (List.range count).map freshEntry

/--
`check_entry_unused`: when the status is exactly `MPP_SLOT_USED` the slot is
freed: status cleared, the frame's buffer is put (logged when non-NULL) and
the frame pointer is nulled.  `mpp_assert(entry->frame)` failing (a `USED`
entry with no frame) is `none`.  The result pairs the updated entry with the
list of buffers put.
-/
def check_entry_unused (e : MppBufSlotEntry) : Option (MppBufSlotEntry × List Nat) :=
  if e.status = MPP_SLOT_USED then
    match e.frame with
    | none => none
    | some f =>
      some ({ e with status := MPP_SLOT_UNUSED, frame := none },
            match f.buffer with
            | some b => [b]
            | none => [])
  else
    some (e, [])

/-- `mpp_buf_slot_init`: the `mpp_calloc`-zeroed pool with a NULL slot array
and an empty display list. -/
def mpp_buf_slot_init : MppBufSlotsImpl :=
  { count := 0, size := 0, decode_count := 0, display_count := 0,
    info_changed := 0, new_count := 0, new_size := 0, output := 0,
    display := [], slots := none, released := [], increfs := [] }

/--
`mpp_buf_slot_setup`.  First call (NULL slot array) allocates and initializes
the table and records count/size, ignoring `changed`.  Later calls with
`changed = 0` assert the size is unchanged (`none` on failure) and grow the
array (without updating `impl->count`, exactly as the source does); with
`changed ≠ 0` they only stage the new geometry and raise `info_changed`.
-/
def mpp_buf_slot_setup (impl : MppBufSlotsImpl) (count size changed : Nat) :
    Option MppBufSlotsImpl :=
  match impl.slots with
  | none =>
    some { impl with count := count, size := size,
                     slots := some (init_slot_list count) }
  | some sl =>
    if changed = 0 then
      if size = impl.size then
        if impl.count < count then
          let grown := sl ++ (List.range (count - impl.count)).map
            (fun i => freshEntry (impl.count + i))
          some { impl with slots := some grown }
        else
          some impl
      else
        none
    else
      some { impl with new_count := count, new_size := size, info_changed := 1 }

/-- `mpp_buf_slot_is_changed`. -/
def mpp_buf_slot_is_changed (impl : MppBufSlotsImpl) : Nat :=
  impl.info_changed

/--
`mpp_buf_slot_ready`: asserts a change is staged and the table exists
(`none` otherwise), then clears the flag, applies the staged size
unconditionally, and reallocates/reinitializes the table only when the
staged count differs from the current one.
-/
def mpp_buf_slot_ready (impl : MppBufSlotsImpl) : Option MppBufSlotsImpl :=
  match impl.slots with
  | none => none
  | some sl =>
    if impl.info_changed = 0 then
      none
    else
      some { impl with
        info_changed := 0,
        size := impl.new_size,
        slots := some (if impl.count ≠ impl.new_count then
                         init_slot_list impl.new_count
                       else sl),
        count := impl.new_count }

/-- The linear scan of `mpp_buf_slot_get_unused`: first index `i < count`
whose entry has status `MPP_SLOT_UNUSED` (an index beyond the allocation is
never unused; reachable states keep `count ≤` array length). -/
def find_unused (l : List MppBufSlotEntry) (count : Nat) : Option Nat :=
  (List.range count).find? (fun i => (l.get? i).any (fun e => e.status == MPP_SLOT_UNUSED))

/--
`mpp_buf_slot_get_unused`: scan for the first unused slot; on success mark it
`MPP_SLOT_USED` and return its index; on failure (`*index = -1`, `MPP_NOK`)
return `none` as index with the pool untouched.
-/
def mpp_buf_slot_get_unused (impl : MppBufSlotsImpl) :
    MppBufSlotsImpl × Option Nat :=
  match find_unused (impl.slots.getD []) impl.count with
  | some i =>
    ({ impl with slots := some (listUpdate (impl.slots.getD []) i
        (fun e => { e with status := e.status ||| MPP_SLOT_USED })) }, some i)
  | none => (impl, none)

/-- `mpp_buf_slot_set_ref`: assert `index < count`, OR in the reference flag. -/
def mpp_buf_slot_set_ref (impl : MppBufSlotsImpl) (index : Nat) :
    Option MppBufSlotsImpl :=
  if index < impl.count then
    some { impl with slots := some (listUpdate (impl.slots.getD []) index
      (fun e => { e with status := e.status ||| MPP_SLOT_USED_AS_REF })) }
  else
    none

/--
Shared tail of `mpp_buf_slot_clr_ref` / `mpp_buf_slot_clr_decoding`: the
source computes `slot = &impl->slots[index]` and then calls
`check_entry_unused(&slot[index])`, i.e. the release check runs on the entry
at position `index + index`.  Out-of-bounds access is `none`.
-/
def run_check_at (impl : MppBufSlotsImpl) (l : List MppBufSlotEntry) (j : Nat) :
    Option MppBufSlotsImpl :=
  match l.get? j with
  | none => none
  | some e =>
    match check_entry_unused e with
    | none => none
    | some (e2, rel) =>
      some { impl with slots := some (listUpdate l j (fun _ => e2)),
                       released := impl.released ++ rel }

/-- `mpp_buf_slot_clr_ref`: assert `index < count`, clear the reference flag
on slot `index`, then `check_entry_unused(&slot[index])` — which is the entry
at `index + index`. -/
def mpp_buf_slot_clr_ref (impl : MppBufSlotsImpl) (index : Nat) :
    Option MppBufSlotsImpl :=
  if index < impl.count then
    run_check_at impl
      (listUpdate (impl.slots.getD []) index
        (fun e => { e with status := clrFlag e.status MPP_SLOT_USED_AS_REF }))
      (index + index)
  else
    none

/--
`mpp_buf_slot_set_decoding`: assert `index < count`, OR in the decoding flag,
lazily allocate the frame when `NULL`, value-copy the caller's frame into it,
record `index` in `impl->output`.
-/
def mpp_buf_slot_set_decoding (impl : MppBufSlotsImpl) (index : Nat)
    (frame : MppFrameImpl) : Option MppBufSlotsImpl :=
  if index < impl.count then
    some { impl with
      slots := some (listUpdate (impl.slots.getD []) index (fun e =>
        { e with
          status := e.status ||| MPP_SLOT_USED_AS_DECODING,
          frame := some (frame_copy_meta (e.frame.getD mpp_frame_init_frame) frame) })),
      output := index }
  else
    none

/-- `mpp_buf_slot_clr_decoding`: assert `index < count`, clear the decoding
flag on slot `index`, increment `decode_count`, then
`check_entry_unused(&slot[index])` — the entry at `index + index`. -/
def mpp_buf_slot_clr_decoding (impl : MppBufSlotsImpl) (index : Nat) :
    Option MppBufSlotsImpl :=
  if index < impl.count then
    run_check_at { impl with decode_count := impl.decode_count + 1 }
      (listUpdate (impl.slots.getD []) index
        (fun e => { e with status := clrFlag e.status MPP_SLOT_USED_AS_DECODING }))
      (index + index)
  else
    none

/-- `mpp_buf_slot_get_decoding`: returns `impl->output`. -/
def mpp_buf_slot_get_decoding (impl : MppBufSlotsImpl) : Nat :=
  impl.output

/-- `mpp_buf_slot_set_display`: assert `index < count`, OR in the display
flag, `list_del_init` the entry's node (remove the index wherever queued) and
`list_add_tail` it to the display list. -/
def mpp_buf_slot_set_display (impl : MppBufSlotsImpl) (index : Nat) :
    Option MppBufSlotsImpl :=
  if index < impl.count then
    some { impl with
      slots := some (listUpdate (impl.slots.getD []) index
        (fun e => { e with status := e.status ||| MPP_SLOT_USED_AS_DISPLAY })),
      display := (impl.display.filter (fun j => j ≠ index)) ++ [index] }
  else
    none

/-- `mpp_buf_slot_set_buffer`: assert `index < count` and `slot->frame`
non-NULL, bind the buffer into the frame and `mpp_buffer_inc_ref` it. -/
def mpp_buf_slot_set_buffer (impl : MppBufSlotsImpl) (index : Nat) (buffer : Nat) :
    Option MppBufSlotsImpl :=
  if index < impl.count then
    match (impl.slots.getD []).get? index with
    | none => none
    | some e =>
      match e.frame with
      | none => none
      | some f =>
        some { impl with
          slots := some (listUpdate (impl.slots.getD []) index
            (fun e1 => { e1 with frame := some (mpp_frame_set_buffer f buffer) })),
          increfs := impl.increfs ++ [buffer] }
  else
    none

/-- `mpp_buf_slot_get_buffer`: assert `index < count`, read the bound buffer
through the frame (`NULL` frame dereference is `none`). -/
def mpp_buf_slot_get_buffer (impl : MppBufSlotsImpl) (index : Nat) :
    Option (Option Nat) :=
  if index < impl.count then
    match (impl.slots.getD []).get? index with
    | none => none
    | some e =>
      match e.frame with
      | none => none
      | some f => some (mpp_frame_get_buffer f)
  else
    none

/--
`mpp_buf_slot_get_display`: `MPP_NOK` (modelled as index result `none` with
the pool unchanged) when the display list is empty; otherwise return the head
entry's frame pointer as read at pop time, assert its index is in range,
clear the display flag, remove it from the list, run `check_entry_unused` on
that same entry, and increment `display_count`.
-/
def mpp_buf_slot_get_display (impl : MppBufSlotsImpl) :
    Option (MppBufSlotsImpl × Option (Option MppFrameImpl)) :=
  match impl.display with
  | [] => some (impl, none)
  | i :: rest =>
    match (impl.slots.getD []).get? i with
    | none => none
    | some e =>
      if i < impl.count then
        match check_entry_unused
            { e with status := clrFlag e.status MPP_SLOT_USED_AS_DISPLAY } with
        | none => none
        | some (e2, rel) =>
          some ({ impl with
                    slots := some (listUpdate (impl.slots.getD []) i (fun _ => e2)),
                    display := rest,
                    display_count := impl.display_count + 1,
                    released := impl.released ++ rel },
                some e.frame)
      else
        none

/-! Basic lemmas about the list helpers. -/

theorem listUpdate_length (l : List α) (i : Nat) (f : α → α) :
    (listUpdate l i f).length = l.length := by
  induction l generalizing i with
  | nil => rfl
  | cons x xs ih =>
    cases i with
    | zero => rfl
    | succ n => simp [listUpdate, ih]

theorem listUpdate_get?_self (l : List α) (i : Nat) (f : α → α) :
    (listUpdate l i f).get? i = (l.get? i).map f := by
  induction l generalizing i with
  | nil => rfl
  | cons x xs ih =>
    cases i with
    | zero => rfl
    | succ n => simpa [listUpdate] using ih n

theorem listUpdate_get?_ne (l : List α) (i j : Nat) (f : α → α) (h : j ≠ i) :
    (listUpdate l i f).get? j = l.get? j := by
  induction l generalizing i j with
  | nil => rfl
  | cons x xs ih =>
    cases i with
    | zero =>
      cases j with
      | zero => exact absurd rfl h
      | succ m => rfl
    | succ n =>
      cases j with
      | zero => rfl
      | succ m => simpa [listUpdate] using ih n m (fun hc => h (by omega))

theorem init_slot_list_length (n : Nat) : (init_slot_list n).length = n := by
  simp [init_slot_list]

theorem init_slot_list_get? {n i : Nat} (h : i < n) :
    (init_slot_list n).get? i = some (freshEntry i) := by
  rw [init_slot_list, List.get?_map, List.get?_range h]
  rfl

theorem init_slot_list_status {n : Nat} {e : MppBufSlotEntry}
    (h : e ∈ init_slot_list n) : e.status = MPP_SLOT_UNUSED := by
  simp only [init_slot_list, List.mem_map] at h
  obtain ⟨i, -, rfl⟩ := h
  rfl

/-! The linear-scan characterization of `List.find?` over `List.range`. -/

theorem find?_range_some {p : Nat → Bool} {n i : Nat}
    (h : (List.range n).find? p = some i) :
    i < n ∧ p i = true ∧ ∀ j < i, p j = false := by
  have hi : i < n := List.mem_range.mp (List.mem_of_find?_eq_some h)
  have hp := List.find?_some h
  obtain ⟨-, as, bs, hdec, has⟩ := List.find?_eq_some.mp h
  have hget : (List.range n).get? as.length = some i := by
    rw [hdec, List.get?_append_right (Nat.le_refl _), Nat.sub_self]
    rfl
  have hlt : as.length < n := by
    have := (List.get?_eq_some.mp hget).1
    simpa using this
  have hil : i = as.length := by
    have h2 := List.get?_range hlt
    rw [hget] at h2
    exact Option.some_injective _ h2
  have has_eq : as = List.range i := by
    have h3 : (List.range n).take as.length = as := by
      rw [hdec, List.take_left]
    rw [List.take_range, Nat.min_eq_left (Nat.le_of_lt hlt)] at h3
    rw [hil]
    exact h3.symm
  refine ⟨hi, hp, fun j hj => ?_⟩
  have hmem : j ∈ as := by
    rw [has_eq]
    exact List.mem_range.mpr hj
  have := has j hmem
  simpa using this

theorem find?_range_none {p : Nat → Bool} {n : Nat}
    (h : (List.range n).find? p = none) : ∀ j < n, p j = false := by
  intro j hj
  have := List.find?_eq_none.mp h j (List.mem_range.mpr hj)
  simpa using this

/-- Characterize a successful scan in `find_unused`. -/
theorem find_unused_some {l : List MppBufSlotEntry} {count i : Nat}
    (h : find_unused l count = some i) :
    i < count ∧
    (∃ e, l.get? i = some e ∧ e.status = MPP_SLOT_UNUSED) ∧
    ∀ j < i, ∀ e, l.get? j = some e → e.status ≠ MPP_SLOT_UNUSED := by
  obtain ⟨hi, hp, hmin⟩ := find?_range_some (h := h)
  refine ⟨hi, ?_, ?_⟩
  · cases hg : l.get? i with
    | none => rw [hg] at hp; simp [Option.any] at hp
    | some e =>
      rw [hg] at hp
      simp only [Option.any, beq_iff_eq] at hp
      exact ⟨e, rfl, by simpa using hp⟩
  · intro j hj e hg
    have := hmin j hj
    rw [hg] at this
    simp only [Option.any, beq_iff_eq] at this
    simpa using this

/-- Run `check_entry_unused` leaves a non-`USED` status entry alone. -/
theorem check_entry_unused_skip {e : MppBufSlotEntry} (h : e.status ≠ MPP_SLOT_USED) :
    check_entry_unused e = some (e, []) := by
  unfold check_entry_unused
  simp [h]

/-- Characterize a failed scan in `find_unused`. -/
theorem find_unused_none {l : List MppBufSlotEntry} {count : Nat}
    (h : find_unused l count = none) :
    ∀ j < count, ∀ e, l.get? j = some e → e.status ≠ MPP_SLOT_UNUSED := by
  intro j hj e hg
  have := find?_range_none (h := h) j hj
  rw [hg] at this
  simp only [Option.any, beq_iff_eq] at this
  simpa using this

/-! ### Claim C10 -/

/--
C10: the very first `mpp_buf_slot_setup` call on a freshly initialized pool
allocates the table immediately with the given count and size regardless of
the `changed` argument, leaves `info_changed` at `0` (so
`mpp_buf_slot_is_changed` reports no staged change), and a subsequent
`mpp_buf_slot_ready` finds nothing staged and fails.
-/
theorem C10_first_setup_ignores_changed (count size changed : Nat) :
    ∃ s0, mpp_buf_slot_setup mpp_buf_slot_init count size changed = some s0 ∧
      s0.count = count ∧
      s0.size = size ∧
      s0.slots = some (init_slot_list count) ∧
      (init_slot_list count).length = count ∧
      (∀ e ∈ init_slot_list count, e.status = MPP_SLOT_UNUSED) ∧
      s0.info_changed = 0 ∧
      mpp_buf_slot_is_changed s0 = 0 ∧
      mpp_buf_slot_ready s0 = none := by
  refine ⟨_, rfl, rfl, rfl, rfl, init_slot_list_length count,
    fun e he => init_slot_list_status he, rfl, rfl, rfl⟩

/-! ### Claim C7 -/

/-- The postcondition of `mpp_buf_slot_get_unused` on a pool whose slot array
is `sl`: the returned index is the first unused one found by the linear scan
and is marked `USED`, other slots untouched; with no unused slot the call
fails and acquires nothing. -/
def GetUnusedPost (impl : MppBufSlotsImpl) (sl : List MppBufSlotEntry) : Prop :=
  (∀ i, (mpp_buf_slot_get_unused impl).2 = some i →
    i < impl.count ∧
    (∃ e, sl.get? i = some e ∧ e.status = MPP_SLOT_UNUSED ∧
      ((mpp_buf_slot_get_unused impl).1.slots.getD []).get? i =
        some { e with status := MPP_SLOT_USED }) ∧
    (∀ j < i, ∀ e, sl.get? j = some e → e.status ≠ MPP_SLOT_UNUSED) ∧
    (∀ j, j ≠ i → ((mpp_buf_slot_get_unused impl).1.slots.getD []).get? j = sl.get? j) ∧
    (mpp_buf_slot_get_unused impl).1 =
      { impl with slots := some (listUpdate sl i
          (fun e1 => { e1 with status := e1.status ||| MPP_SLOT_USED })) }) ∧
  ((mpp_buf_slot_get_unused impl).2 = none →
    (mpp_buf_slot_get_unused impl).1 = impl ∧
    ∀ j < impl.count, ∀ e, sl.get? j = some e → e.status ≠ MPP_SLOT_UNUSED)

/-- The four-slot exhaustion chain of Scenario C. -/
def c7_pool : MppBufSlotsImpl :=
  (mpp_buf_slot_setup mpp_buf_slot_init 4 1024 0).getD mpp_buf_slot_init

def c7_s1 : MppBufSlotsImpl := (mpp_buf_slot_get_unused c7_pool).1
def c7_s2 : MppBufSlotsImpl := (mpp_buf_slot_get_unused c7_s1).1
def c7_s3 : MppBufSlotsImpl := (mpp_buf_slot_get_unused c7_s2).1
def c7_s4 : MppBufSlotsImpl := (mpp_buf_slot_get_unused c7_s3).1

/--
C7: `mpp_buf_slot_get_unused` returns the first slot with empty status found
by a linear scan from index 0 and marks it `MPP_SLOT_USED`, leaving all other
slots unchanged; with no empty slot it fails and acquires nothing.  On a
4-slot pool, four acquisitions return indices 0..3 and the fifth fails.
-/
theorem C7_get_unused_first_free
    (impl : MppBufSlotsImpl) (sl : List MppBufSlotEntry)
    (hsl : impl.slots = some sl) :
    GetUnusedPost impl sl ∧
    ((mpp_buf_slot_get_unused c7_pool).2 = some 0 ∧
     (mpp_buf_slot_get_unused c7_s1).2 = some 1 ∧
     (mpp_buf_slot_get_unused c7_s2).2 = some 2 ∧
     (mpp_buf_slot_get_unused c7_s3).2 = some 3 ∧
     (mpp_buf_slot_get_unused c7_s4).2 = none ∧
     (mpp_buf_slot_get_unused c7_s4).1 = c7_s4) := by
  constructor
  · constructor
    · intro i hi2
      cases hfind : find_unused sl impl.count with
      | none =>
        rw [mpp_buf_slot_get_unused, hsl] at hi2
        simp only [Option.getD_some, hfind] at hi2
        cases hi2
      | some i0 =>
        have hi0 : i0 = i := by
          rw [mpp_buf_slot_get_unused, hsl] at hi2
          simp only [Option.getD_some, hfind] at hi2
          exact Option.some_injective _ hi2
        subst hi0
        obtain ⟨hlt, ⟨e, hge, hst⟩, hmin⟩ := find_unused_some hfind
        have hstate : (mpp_buf_slot_get_unused impl).1 =
            { impl with slots := some (listUpdate sl i0
              (fun e1 => { e1 with status := e1.status ||| MPP_SLOT_USED })) } := by
          rw [mpp_buf_slot_get_unused, hsl]
          simp only [Option.getD_some, hfind]
        refine ⟨hlt, ⟨e, hge, hst, ?_⟩, hmin, ?_, hstate⟩
        · rw [hstate]
          simp only [Option.getD_some, listUpdate_get?_self, hge, Option.map_some']
          rw [hst]
          rfl
        · intro j hj
          rw [hstate]
          simp only [Option.getD_some]
          exact listUpdate_get?_ne sl i0 j _ hj
    · intro hnone
      cases hfind : find_unused sl impl.count with
      | none =>
        constructor
        · rw [mpp_buf_slot_get_unused, hsl]
          simp only [Option.getD_some, hfind]
        · exact find_unused_none hfind
      | some i0 =>
        rw [mpp_buf_slot_get_unused, hsl] at hnone
        simp only [Option.getD_some, hfind] at hnone
        cases hnone
  · exact ⟨by decide, by decide, by decide, by decide, by decide, by decide⟩

/-- Witness for C7 at the concrete 4-slot pool. -/
theorem C7_get_unused_first_free_witness :
    c7_pool.slots = some (init_slot_list 4) ∧
    (GetUnusedPost c7_pool (init_slot_list 4) ∧
     ((mpp_buf_slot_get_unused c7_pool).2 = some 0 ∧
      (mpp_buf_slot_get_unused c7_s1).2 = some 1 ∧
      (mpp_buf_slot_get_unused c7_s2).2 = some 2 ∧
      (mpp_buf_slot_get_unused c7_s3).2 = some 3 ∧
      (mpp_buf_slot_get_unused c7_s4).2 = none ∧
      (mpp_buf_slot_get_unused c7_s4).1 = c7_s4)) :=
  ⟨by decide, C7_get_unused_first_free c7_pool (init_slot_list 4) (by decide)⟩

/-! ### Claim C5 -/

/-- The postcondition of `mpp_buf_slot_ready` on a pool whose slot array is
`sl`. -/
def ReadyPost (impl : MppBufSlotsImpl) (sl : List MppBufSlotEntry) : Prop :=
  (impl.info_changed = 0 → mpp_buf_slot_ready impl = none) ∧
  (impl.info_changed ≠ 0 →
    ∃ s', mpp_buf_slot_ready impl = some s' ∧
      s'.count = impl.new_count ∧
      s'.size = impl.new_size ∧
      s'.info_changed = 0 ∧
      mpp_buf_slot_is_changed s' = 0 ∧
      (impl.count = impl.new_count → s'.slots = some sl) ∧
      (impl.count ≠ impl.new_count → s'.slots = some (init_slot_list impl.new_count)) ∧
      ((∀ e ∈ sl, e.status = MPP_SLOT_UNUSED) →
        ∀ sl', s'.slots = some sl' → ∀ e ∈ sl', e.status = MPP_SLOT_UNUSED))

/--
C5: `mpp_buf_slot_ready` fails when no change is staged; with a staged change
`{new_count, new_size}` it succeeds, applies the staged size unconditionally,
reallocates and fully reinitializes the slot table only when the staged count
differs from the current one, clears the staged flag, and (when every slot
was drained to Free) afterwards capacity is the staged count, size the staged
size, every slot Free, and `mpp_buf_slot_is_changed` reports nothing staged.
-/
theorem C5_ready_applies_staged_change
    (impl : MppBufSlotsImpl) (sl : List MppBufSlotEntry)
    (hsl : impl.slots = some sl) :
    ReadyPost impl sl := by
  constructor
  · intro h0
    rw [mpp_buf_slot_ready, hsl]
    simp [h0]
  · intro hne
    refine ⟨{ impl with
        info_changed := 0,
        size := impl.new_size,
        slots := some (if impl.count ≠ impl.new_count then
                         init_slot_list impl.new_count
                       else sl),
        count := impl.new_count }, ?_, rfl, rfl, rfl, rfl, ?_, ?_, ?_⟩
    · rw [mpp_buf_slot_ready, hsl]
      simp only [if_neg hne]
    · intro heq
      rw [if_neg (show ¬ impl.count ≠ impl.new_count from fun hc => hc heq)]
    · intro hneq
      rw [if_pos hneq]
    · intro hall sl' hsl' e he
      by_cases hc : impl.count = impl.new_count
      · rw [if_neg (show ¬ impl.count ≠ impl.new_count from fun hx => hx hc)] at hsl'
        have hq : sl = sl' := Option.some_injective _ hsl'
        rw [← hq] at he
        exact hall e he
      · rw [if_pos hc] at hsl'
        have hq : init_slot_list impl.new_count = sl' := Option.some_injective _ hsl'
        rw [← hq] at he
        exact init_slot_list_status he

/-- A concrete 4-slot pool used to witness C5. -/
def c5_pool : MppBufSlotsImpl :=
  (mpp_buf_slot_setup mpp_buf_slot_init 4 1024 0).getD mpp_buf_slot_init

/-- Witness for C5 at a concrete staged pool (4 slots, staged resize to
6 slots of 2048 bytes, all slots Free). -/
theorem C5_ready_applies_staged_change_witness :
    ((mpp_buf_slot_setup c5_pool 6 2048 1).getD mpp_buf_slot_init).slots =
      some (init_slot_list 4) ∧
    ReadyPost ((mpp_buf_slot_setup c5_pool 6 2048 1).getD mpp_buf_slot_init)
      (init_slot_list 4) :=
  ⟨by decide,
   C5_ready_applies_staged_change
     ((mpp_buf_slot_setup c5_pool 6 2048 1).getD mpp_buf_slot_init)
     (init_slot_list 4) (by decide)⟩

/-! ### Claim C1 -/

/-- Trace for C1, part (a): 4-slot pool; acquire slots 0 and 1, decode into
slot 1, bind buffer 7 to it, then `mpp_buf_slot_clr_decoding 1`. -/
def c1_trace_a : Option MppBufSlotsImpl :=
  (mpp_buf_slot_setup mpp_buf_slot_init 4 1024 0).bind fun s0 =>
  (mpp_buf_slot_set_decoding
      (mpp_buf_slot_get_unused (mpp_buf_slot_get_unused s0).1).1 1
      { meta := 5, buffer := none }).bind fun s3 =>
  (mpp_buf_slot_set_buffer s3 1 7).bind fun s4 =>
  mpp_buf_slot_clr_decoding s4 1

/-- Trace for C1, part (b): 8-slot pool; bring slot 2 to status exactly
`Used` with buffer 9 still bound (itself via the mis-indexed check), then
reference slot 1 while it decodes and `mpp_buf_slot_clr_ref 1`. -/
def c1_trace_b : Option MppBufSlotsImpl :=
  (mpp_buf_slot_setup mpp_buf_slot_init 8 1024 0).bind fun s0 =>
  (mpp_buf_slot_set_decoding
      (mpp_buf_slot_get_unused
        (mpp_buf_slot_get_unused (mpp_buf_slot_get_unused s0).1).1).1 2
      { meta := 3, buffer := none }).bind fun s4 =>
  (mpp_buf_slot_set_buffer s4 2 9).bind fun s5 =>
  (mpp_buf_slot_clr_decoding s5 2).bind fun s6 =>
  (mpp_buf_slot_set_decoding s6 1 { meta := 5, buffer := none }).bind fun s7 =>
  (mpp_buf_slot_set_ref s7 1).bind fun s8 =>
  mpp_buf_slot_clr_ref s8 1

/--
C1: the claim says `clearReference(i)` / `clearDecoding(i)` perform the
release check on slot `i` itself and inspect or modify no other slot.  The
code calls `check_entry_unused(&slot[index])` with `slot == &slots[index]`,
so the check runs on slot `2*index`.  Part (a): `clr_decoding(1)` leaves
slot 1 with status exactly `Used` and buffer 7 still bound, and releases
nothing — the claim requires slot 1 to be released and become Free.
Part (b): `clr_ref(1)` leaves slot 1 non-idle (status `Used|Decoding`), yet
releases slot 2's buffer 9 and frees slot 2 — the claim requires no other
slot to be touched.
-/
theorem C1_release_check_runs_on_wrong_slot :
    (c1_trace_a.map (fun s =>
        ((s.slots.getD []).get? 1, s.released)) =
      some (some { status := MPP_SLOT_USED, index := 1,
                   frame := some { meta := 5, buffer := some 7 } }, [])) ∧
    (c1_trace_b.map (fun s =>
        ((s.slots.getD []).get? 1, (s.slots.getD []).get? 2, s.released)) =
      some (some { status := 5, index := 1, frame := some { meta := 5, buffer := none } },
            some { status := MPP_SLOT_UNUSED, index := 2, frame := none },
            [9])) := by
  constructor
  · decide
  · decide

/-! ### Claim C2 -/

/-- Trace for C2: 4-slot pool; acquire slots 0 and 1, decode into slot 1,
bind buffer 7 (one `mpp_buffer_inc_ref`), then clear the Decoding claim on
slot 1 — the operation that leaves slot 1 with status exactly `Used`. -/
def c2_trace : Option MppBufSlotsImpl :=
  (mpp_buf_slot_setup mpp_buf_slot_init 4 1024 0).bind fun s0 =>
  (mpp_buf_slot_set_decoding
      (mpp_buf_slot_get_unused (mpp_buf_slot_get_unused s0).1).1 1
      { meta := 5, buffer := none }).bind fun s3 =>
  (mpp_buf_slot_set_buffer s3 1 7).bind fun s4 =>
  mpp_buf_slot_clr_decoding s4 1

/--
C2: the claim's invariant says the buffer reference is released exactly once,
by the claim-clearing operation that leaves the slot's status equal to
`{Used}`, which then becomes Free.  In this reachable trace
`clr_decoding(1)` is exactly such an operation: it leaves slot 1 with status
`MPP_SLOT_USED` and no other bits.  Yet slot 1 keeps its frame and bound
buffer 7, the slot does not become Free, and the release log stays empty
(against one `inc_ref`), because the release check ran on slot 2 instead.
-/
theorem C2_reference_not_released_on_clearing_op :
    c2_trace.map (fun s =>
        ((s.slots.getD []).get? 1, s.released, s.increfs)) =
      some (some { status := MPP_SLOT_USED, index := 1,
                   frame := some { meta := 5, buffer := some 7 } },
            [], [7]) := by
  decide

/-! ### Claim C3 -/

/-- Pre-state for C3: 8-slot pool with slot 2 at status exactly `Used` and
buffer 9 bound, and slot 1 at status `Used` with no Reference bit set. -/
def c3_pre : Option MppBufSlotsImpl :=
  (mpp_buf_slot_setup mpp_buf_slot_init 8 1024 0).bind fun s0 =>
  (mpp_buf_slot_set_decoding
      (mpp_buf_slot_get_unused
        (mpp_buf_slot_get_unused (mpp_buf_slot_get_unused s0).1).1).1 2
      { meta := 3, buffer := none }).bind fun s4 =>
  (mpp_buf_slot_set_buffer s4 2 9).bind fun s5 =>
  mpp_buf_slot_clr_decoding s5 2

/--
C3: the claim says clearing a claim that is not set (here `clr_ref(1)` on
slot 1, whose Reference bit is clear: its status is `MPP_SLOT_USED`) is a
no-op and in particular triggers no buffer release.  In the code the
redundant clear leaves slot 1 unchanged but runs the release check on
slot 2, releasing slot 2's buffer 9 and freeing slot 2 — a spurious release
triggered by a redundant clear.
-/
theorem C3_redundant_clear_triggers_release :
    (c3_pre.map (fun s =>
        ((s.slots.getD []).get? 1, (s.slots.getD []).get? 2, s.released)) =
      some (some { status := MPP_SLOT_USED, index := 1, frame := none },
            some { status := MPP_SLOT_USED, index := 2,
                   frame := some { meta := 3, buffer := some 9 } },
            [])) ∧
    ((c3_pre.bind (fun s => mpp_buf_slot_clr_ref s 1)).map (fun s =>
        ((s.slots.getD []).get? 1, (s.slots.getD []).get? 2, s.released)) =
      some (some { status := MPP_SLOT_USED, index := 1, frame := none },
            some { status := MPP_SLOT_UNUSED, index := 2, frame := none },
            [9])) := by
  constructor
  · decide
  · decide

/-! ### Claim C4 -/

/-- Trace for C4: 4-slot pool; acquire slot 0, decode into it (allocating its
frame handle), bind buffer 9, then `mpp_buf_slot_clr_decoding 0` — at index 0
the mis-indexed release check does land on slot 0 itself and fires. -/
def c4_trace : Option MppBufSlotsImpl :=
  (mpp_buf_slot_setup mpp_buf_slot_init 4 1024 0).bind fun s0 =>
  (mpp_buf_slot_set_decoding (mpp_buf_slot_get_unused s0).1 0
      { meta := 5, buffer := none }).bind fun s2 =>
  (mpp_buf_slot_set_buffer s2 0 9).bind fun s3 =>
  mpp_buf_slot_clr_decoding s3 0

/--
C4 counterexample: the claim says the release check clears only the buffer
binding while the slot's attached frame handle is retained, so the next
`setDecoding` reuses it instead of allocating a new one.  In the code
`check_entry_unused` sets `entry->frame = NULL`: after the release the slot's
frame field is `none` (the handle is gone from the pool), and the following
`mpp_buf_slot_set_decoding` finds no frame and allocates a fresh one
(`mpp_frame_init`), contradicting the claim.
-/
theorem C4_counterexample_frame_not_retained :
    (c4_trace.map (fun s => ((s.slots.getD []).get? 0, s.released)) =
      some (some { status := MPP_SLOT_UNUSED, index := 0, frame := none }, [9])) ∧
    ((c4_trace.bind (fun s =>
        mpp_buf_slot_set_decoding s 0 { meta := 6, buffer := none })).map
          (fun s => (s.slots.getD []).get? 0) =
      some (some { status := MPP_SLOT_USED_AS_DECODING, index := 0,
                   frame := some (frame_copy_meta mpp_frame_init_frame
                                    { meta := 6, buffer := none }) })) := by
  constructor
  · decide
  · decide

/--
C4 (amended): when the release check finds a slot whose status is exactly
`{Used}`, it releases the bound buffer reference and clears the slot's whole
frame field to NULL (the handle is dropped from the pool, not destroyed), so
a subsequent `setDecoding` on a slot with no frame allocates a fresh frame
handle (a value-copy into `mpp_frame_init`'s fresh handle) rather than
reusing the previous one.
-/
theorem C4_release_drops_frame_and_next_decode_allocates
    (e : MppBufSlotEntry) (f : MppFrameImpl)
    (hs : e.status = MPP_SLOT_USED) (hf : e.frame = some f)
    (impl : MppBufSlotsImpl) (i : Nat) (fr : MppFrameImpl) (s2 : MppBufSlotsImpl)
    (hfree : ((impl.slots.getD []).get? i).map MppBufSlotEntry.frame = some none)
    (hset : mpp_buf_slot_set_decoding impl i fr = some s2) :
    check_entry_unused e =
      some ({ e with status := MPP_SLOT_UNUSED, frame := none }, f.buffer.toList) ∧
    ((s2.slots.getD []).get? i).map MppBufSlotEntry.frame =
      some (some (frame_copy_meta mpp_frame_init_frame fr)) := by
  constructor
  · cases hb : f.buffer with
    | none =>
      rw [check_entry_unused, if_pos hs, hf]
      simp [hb]
    | some b =>
      rw [check_entry_unused, if_pos hs, hf]
      simp [hb]
  · rw [mpp_buf_slot_set_decoding] at hset
    by_cases hi : i < impl.count
    · rw [if_pos hi] at hset
      have hs2 := Option.some_injective _ hset
      subst hs2
      obtain ⟨e0, hge0, hfr0⟩ :
          ∃ e0, (impl.slots.getD []).get? i = some e0 ∧ e0.frame = none := by
        cases hg : (impl.slots.getD []).get? i with
        | none => rw [hg] at hfree; cases hfree
        | some e0 =>
          rw [hg] at hfree
          exact ⟨e0, rfl, by simpa using hfree⟩
      simp only [Option.getD_some, listUpdate_get?_self, hge0, Option.map_some', hfr0]
      rfl
    · rw [if_neg hi] at hset
      cases hset

/-- Entry used to witness C4's release part: slot 0 just before the release
check fires in `c4_trace` (status exactly `Used`, frame with buffer 9). -/
def c4_e : MppBufSlotEntry :=
  { status := MPP_SLOT_USED, index := 0, frame := some { meta := 5, buffer := some 9 } }

def c4_f : MppFrameImpl := { meta := 5, buffer := some 9 }

def c4_fr : MppFrameImpl := { meta := 6, buffer := none }

/-- The pool after `c4_trace` (slot 0 Free with a dropped frame). -/
def c4_impl : MppBufSlotsImpl := c4_trace.getD mpp_buf_slot_init

def c4_s2 : MppBufSlotsImpl :=
  (mpp_buf_slot_set_decoding c4_impl 0 c4_fr).getD mpp_buf_slot_init

/-- Witness for C4's amended theorem at concrete inputs. -/
theorem C4_release_drops_frame_witness :
    c4_e.status = MPP_SLOT_USED ∧
    c4_e.frame = some c4_f ∧
    ((c4_impl.slots.getD []).get? 0).map MppBufSlotEntry.frame = some none ∧
    mpp_buf_slot_set_decoding c4_impl 0 c4_fr = some c4_s2 ∧
    (check_entry_unused c4_e =
       some ({ c4_e with status := MPP_SLOT_UNUSED, frame := none }, c4_f.buffer.toList) ∧
     ((c4_s2.slots.getD []).get? 0).map MppBufSlotEntry.frame =
       some (some (frame_copy_meta mpp_frame_init_frame c4_fr))) :=
  ⟨by decide, by decide, by decide, by decide,
   C4_release_drops_frame_and_next_decode_allocates c4_e c4_f (by decide) (by decide)
     c4_impl 0 c4_fr c4_s2 (by decide) (by decide)⟩

/-! ### Claim C9 -/

/-- Postcondition of `mpp_buf_slot_set_decoding` / `mpp_buf_slot_get_decoding`
for C9: Decoding claim added, frame lazily allocated only when absent,
metadata copied by value with the buffer binding untouched, index recorded as
the single most-recent decoding index. -/
def SetDecodingPost (impl : MppBufSlotsImpl) (sl : List MppBufSlotEntry)
    (i : Nat) (fr : MppFrameImpl) : Prop :=
  ∃ s', mpp_buf_slot_set_decoding impl i fr = some s' ∧
    mpp_buf_slot_get_decoding s' = i ∧
    s'.output = i ∧
    (∀ e, sl.get? i = some e →
      (s'.slots.getD []).get? i =
        some { e with
          status := e.status ||| MPP_SLOT_USED_AS_DECODING,
          frame := some (frame_copy_meta (e.frame.getD mpp_frame_init_frame) fr) } ∧
      (∀ f0, e.frame = some f0 →
        (frame_copy_meta (e.frame.getD mpp_frame_init_frame) fr).buffer = f0.buffer ∧
        (frame_copy_meta (e.frame.getD mpp_frame_init_frame) fr).meta = fr.meta) ∧
      (e.frame = none →
        frame_copy_meta (e.frame.getD mpp_frame_init_frame) fr =
          { meta := fr.meta, buffer := none })) ∧
    (∀ j, j ≠ i → (s'.slots.getD []).get? j = sl.get? j) ∧
    (∀ i2 fr2 s2, mpp_buf_slot_set_decoding s' i2 fr2 = some s2 →
      mpp_buf_slot_get_decoding s2 = i2)

/--
C9: `mpp_buf_slot_set_decoding(index, frame)` adds the Decoding claim to the
slot, allocates the slot's frame handle only if absent, value-copies the
caller's metadata without altering the slot's buffer binding, and records
`index` in `impl->output`, so an immediately following
`mpp_buf_slot_get_decoding` returns `index`; `get_decoding` always returns
the index of the most recent `set_decoding` (a single most-recent pointer).
-/
theorem C9_set_decoding_copies_meta_and_records_index
    (impl : MppBufSlotsImpl) (sl : List MppBufSlotEntry) (i : Nat) (fr : MppFrameImpl)
    (hsl : impl.slots = some sl) (hi : i < impl.count) :
    SetDecodingPost impl sl i fr := by
  refine ⟨{ impl with
      slots := some (listUpdate sl i (fun e =>
        { e with status := e.status ||| MPP_SLOT_USED_AS_DECODING,
                 frame := some (frame_copy_meta (e.frame.getD mpp_frame_init_frame) fr) })),
      output := i }, ?_, rfl, rfl, ?_, ?_, ?_⟩
  · rw [mpp_buf_slot_set_decoding, hsl, if_pos hi]
    rfl
  · intro e he
    refine ⟨?_, ?_, ?_⟩
    · simp only [Option.getD_some, listUpdate_get?_self, he, Option.map_some']
    · intro f0 hf0
      rw [hf0]
      exact ⟨rfl, rfl⟩
    · intro hnone
      rw [hnone]
      rfl
  · intro j hj
    simp only [Option.getD_some]
    exact listUpdate_get?_ne sl i j _ hj
  · intro i2 fr2 s2 hset
    rw [mpp_buf_slot_set_decoding] at hset
    by_cases h2 : i2 < impl.count
    · rw [if_pos h2] at hset
      have := Option.some_injective _ hset
      rw [← this]
      rfl
    · rw [if_neg h2] at hset
      cases hset

/-- A concrete 4-slot pool with slot 0 acquired, used to witness C9. -/
def c9_impl : MppBufSlotsImpl :=
  (mpp_buf_slot_get_unused
    ((mpp_buf_slot_setup mpp_buf_slot_init 4 1024 0).getD mpp_buf_slot_init)).1

/-- Witness for C9 at a concrete pool, index 0 and a concrete frame. -/
theorem C9_set_decoding_witness :
    c9_impl.slots = some (listUpdate (init_slot_list 4) 0
      (fun e => { e with status := e.status ||| MPP_SLOT_USED })) ∧
    0 < c9_impl.count ∧
    SetDecodingPost c9_impl
      (listUpdate (init_slot_list 4) 0
        (fun e => { e with status := e.status ||| MPP_SLOT_USED }))
      0 { meta := 5, buffer := none } :=
  ⟨by decide, by decide,
   C9_set_decoding_copies_meta_and_records_index c9_impl
     (listUpdate (init_slot_list 4) 0
       (fun e => { e with status := e.status ||| MPP_SLOT_USED }))
     0 { meta := 5, buffer := none } (by decide) (by decide)⟩

/-! ### Claim C8 -/

/-- Postcondition of `mpp_buf_slot_get_display` for C8: failure exactly on an
empty queue with the pool untouched; otherwise the head slot is dequeued, its
Display claim cleared, the release check run on that same slot, the display
counter incremented, and the frame bound at pop time returned. -/
def GetDisplayPost (impl : MppBufSlotsImpl) (sl : List MppBufSlotEntry) : Prop :=
  (impl.display = [] → mpp_buf_slot_get_display impl = some (impl, none)) ∧
  (∀ s' r, mpp_buf_slot_get_display impl = some (s', r) →
     (r = none ↔ impl.display = []) ∧ (r = none → s' = impl)) ∧
  (∀ i rest e e2 rel, impl.display = i :: rest → sl.get? i = some e →
     i < impl.count →
     check_entry_unused
       { e with status := clrFlag e.status MPP_SLOT_USED_AS_DISPLAY } = some (e2, rel) →
     mpp_buf_slot_get_display impl =
       some ({ impl with
                 slots := some (listUpdate sl i (fun _ => e2)),
                 display := rest,
                 display_count := impl.display_count + 1,
                 released := impl.released ++ rel },
             some e.frame))

/-- Scenario B chain: acquire slot 0, decode into it, mark it for display,
acquire again (slot 0 is excluded), then pop the display queue. -/
def c8_s0 : MppBufSlotsImpl :=
  (mpp_buf_slot_setup mpp_buf_slot_init 4 1024 0).getD mpp_buf_slot_init

def c8_s1 : MppBufSlotsImpl := (mpp_buf_slot_get_unused c8_s0).1

def c8_s2 : MppBufSlotsImpl :=
  (mpp_buf_slot_set_decoding c8_s1 0 { meta := 5, buffer := none }).getD mpp_buf_slot_init

def c8_s3 : MppBufSlotsImpl := (mpp_buf_slot_set_display c8_s2 0).getD mpp_buf_slot_init

def c8_s4 : MppBufSlotsImpl := (mpp_buf_slot_get_unused c8_s3).1

def c8_s5 : MppBufSlotsImpl :=
  ((mpp_buf_slot_get_display c8_s4).getD (mpp_buf_slot_init, none)).1

/--
C8: `mpp_buf_slot_get_display` fails exactly when the display queue is empty,
leaving all state unchanged; otherwise it dequeues the head slot, clears that
slot's Display claim, runs the release check on that same slot, increments
`display_count` by one, and returns the frame handle bound to the slot at pop
time.  Scenario B: after acquire→0, decode(0), display(0), a second acquire
returns 1; the pop returns slot 0's frame, and slot 0 stays non-Free (status
`Used|Decoding`) until `clr_decoding(0)` frees it.
-/
theorem C8_pop_display_fifo_and_release
    (impl : MppBufSlotsImpl) (sl : List MppBufSlotEntry)
    (hsl : impl.slots = some sl) :
    GetDisplayPost impl sl ∧
    ((mpp_buf_slot_get_unused c8_s0).2 = some 0 ∧
     (mpp_buf_slot_get_unused c8_s3).2 = some 1 ∧
     mpp_buf_slot_get_display c8_s4 =
       some (c8_s5, some (some { meta := 5, buffer := none })) ∧
     ((c8_s5.slots.getD []).get? 0).map MppBufSlotEntry.status =
       some (MPP_SLOT_USED ||| MPP_SLOT_USED_AS_DECODING) ∧
     c8_s5.display_count = 1 ∧
     (mpp_buf_slot_clr_decoding c8_s5 0).map
         (fun s => ((s.slots.getD []).get? 0).map MppBufSlotEntry.status) =
       some (some MPP_SLOT_UNUSED)) := by
  refine ⟨⟨?_, ?_, ?_⟩, by decide, by decide, by decide, by decide, by decide, by decide⟩
  · intro h
    rw [mpp_buf_slot_get_display, h]
  · intro s' r hret
    cases hd : impl.display with
    | nil =>
      rw [mpp_buf_slot_get_display, hd] at hret
      have hret' : (some (impl, (none : Option (Option MppFrameImpl)))) =
          some (s', r) := hret
      have hp := Option.some_injective _ hret'
      have hs' : impl = s' := (Prod.ext_iff.mp hp).1
      have hr : (none : Option (Option MppFrameImpl)) = r := (Prod.ext_iff.mp hp).2
      exact ⟨⟨fun _ => rfl, fun _ => hr.symm⟩, fun _ => hs'.symm⟩
    | cons i rest =>
      rw [mpp_buf_slot_get_display, hd, hsl] at hret
      simp only [Option.getD_some] at hret
      split at hret
      · cases hret
      · split at hret
        · split at hret
          · cases hret
          · injection hret with hp
            injection hp with hs2 hr
            constructor
            · constructor
              · intro hc
                rw [← hr] at hc
                cases hc
              · intro hc
                cases hc
            · intro hc
              rw [← hr] at hc
              cases hc
        · cases hret
  · intro i rest e e2 rel hd hg hic hck
    rw [mpp_buf_slot_get_display, hd, hsl]
    simp only [Option.getD_some]
    split
    · next heq =>
      rw [hg] at heq
      cases heq
    · next e' heq =>
      rw [hg] at heq
      have he' : e' = e := Option.some_injective _ heq.symm
      subst he'
      rw [if_pos hic, hck]

/-- The slot array of `c8_s4` (slot 0 carries Used|Decoding|Display, slot 1
Used, slots 2 and 3 Free). -/
def c8_sl : List MppBufSlotEntry :=
  [ { status := 13, index := 0, frame := some { meta := 5, buffer := none } },
    { status := 1, index := 1, frame := none },
    { status := 0, index := 2, frame := none },
    { status := 0, index := 3, frame := none } ]

/-- Witness for C8 at the concrete Scenario B pool. -/
theorem C8_pop_display_witness :
    c8_s4.slots = some c8_sl ∧
    (GetDisplayPost c8_s4 c8_sl ∧
     ((mpp_buf_slot_get_unused c8_s0).2 = some 0 ∧
      (mpp_buf_slot_get_unused c8_s3).2 = some 1 ∧
      mpp_buf_slot_get_display c8_s4 =
        some (c8_s5, some (some { meta := 5, buffer := none })) ∧
      ((c8_s5.slots.getD []).get? 0).map MppBufSlotEntry.status =
        some (MPP_SLOT_USED ||| MPP_SLOT_USED_AS_DECODING) ∧
      c8_s5.display_count = 1 ∧
      (mpp_buf_slot_clr_decoding c8_s5 0).map
          (fun s => ((s.slots.getD []).get? 0).map MppBufSlotEntry.status) =
        some (some MPP_SLOT_UNUSED))) :=
  ⟨by decide, C8_pop_display_fifo_and_release c8_s4 c8_sl (by decide)⟩

/-! ### Claim C6 -/

/-- One public pool operation, as a step relation over pool states. -/
inductive BufSlotStep : MppBufSlotsImpl → MppBufSlotsImpl → Prop
  | get_unused (s s' : MppBufSlotsImpl) (r : Option Nat) :
      mpp_buf_slot_get_unused s = (s', r) → BufSlotStep s s'
  | set_ref (s : MppBufSlotsImpl) (i : Nat) (s' : MppBufSlotsImpl) :
      mpp_buf_slot_set_ref s i = some s' → BufSlotStep s s'
  | clr_ref (s : MppBufSlotsImpl) (i : Nat) (s' : MppBufSlotsImpl) :
      mpp_buf_slot_clr_ref s i = some s' → BufSlotStep s s'
  | set_decoding (s : MppBufSlotsImpl) (i : Nat) (f : MppFrameImpl)
      (s' : MppBufSlotsImpl) :
      mpp_buf_slot_set_decoding s i f = some s' → BufSlotStep s s'
  | clr_decoding (s : MppBufSlotsImpl) (i : Nat) (s' : MppBufSlotsImpl) :
      mpp_buf_slot_clr_decoding s i = some s' → BufSlotStep s s'
  | set_buffer (s : MppBufSlotsImpl) (i b : Nat) (s' : MppBufSlotsImpl) :
      mpp_buf_slot_set_buffer s i b = some s' → BufSlotStep s s'
  | set_display (s : MppBufSlotsImpl) (i : Nat) (s' : MppBufSlotsImpl) :
      mpp_buf_slot_set_display s i = some s' → BufSlotStep s s'
  | get_display (s s' : MppBufSlotsImpl) (r : Option (Option MppFrameImpl)) :
      mpp_buf_slot_get_display s = some (s', r) → BufSlotStep s s'

/-- States reachable from a freshly set-up pool through the public
operations. -/
def BufSlotReachable (count size : Nat) (s : MppBufSlotsImpl) : Prop :=
  ∃ s0, mpp_buf_slot_setup mpp_buf_slot_init count size 0 = some s0 ∧
    Relation.ReflTransGen BufSlotStep s0 s

theorem get_unused_display (s : MppBufSlotsImpl) :
    (mpp_buf_slot_get_unused s).1.display = s.display := by
  rw [mpp_buf_slot_get_unused]
  split <;> rfl

theorem set_ref_display {s : MppBufSlotsImpl} {i : Nat} {s' : MppBufSlotsImpl}
    (h : mpp_buf_slot_set_ref s i = some s') : s'.display = s.display := by
  rw [mpp_buf_slot_set_ref] at h
  by_cases hi : i < s.count
  · rw [if_pos hi] at h
    obtain rfl := Option.some_injective _ h
    rfl
  · rw [if_neg hi] at h
    cases h

theorem run_check_at_display {impl : MppBufSlotsImpl} {l : List MppBufSlotEntry}
    {j : Nat} {s' : MppBufSlotsImpl}
    (h : run_check_at impl l j = some s') : s'.display = impl.display := by
  rw [run_check_at] at h
  split at h
  · cases h
  · split at h
    · cases h
    · obtain rfl := Option.some_injective _ h
      rfl

theorem clr_ref_display {s : MppBufSlotsImpl} {i : Nat} {s' : MppBufSlotsImpl}
    (h : mpp_buf_slot_clr_ref s i = some s') : s'.display = s.display := by
  rw [mpp_buf_slot_clr_ref] at h
  by_cases hi : i < s.count
  · rw [if_pos hi] at h
    exact run_check_at_display h
  · rw [if_neg hi] at h
    cases h

theorem set_decoding_display {s : MppBufSlotsImpl} {i : Nat} {f : MppFrameImpl}
    {s' : MppBufSlotsImpl}
    (h : mpp_buf_slot_set_decoding s i f = some s') : s'.display = s.display := by
  rw [mpp_buf_slot_set_decoding] at h
  by_cases hi : i < s.count
  · rw [if_pos hi] at h
    obtain rfl := Option.some_injective _ h
    rfl
  · rw [if_neg hi] at h
    cases h

theorem clr_decoding_display {s : MppBufSlotsImpl} {i : Nat} {s' : MppBufSlotsImpl}
    (h : mpp_buf_slot_clr_decoding s i = some s') : s'.display = s.display := by
  rw [mpp_buf_slot_clr_decoding] at h
  by_cases hi : i < s.count
  · rw [if_pos hi] at h
    have h2 := @run_check_at_display { s with decode_count := s.decode_count + 1 } _ _ _ h
    rw [h2]
  · rw [if_neg hi] at h
    cases h

theorem set_buffer_display {s : MppBufSlotsImpl} {i b : Nat} {s' : MppBufSlotsImpl}
    (h : mpp_buf_slot_set_buffer s i b = some s') : s'.display = s.display := by
  rw [mpp_buf_slot_set_buffer] at h
  by_cases hi : i < s.count
  · rw [if_pos hi] at h
    split at h
    · cases h
    · split at h
      · cases h
      · obtain rfl := Option.some_injective _ h
        rfl
  · rw [if_neg hi] at h
    cases h

theorem set_display_display {s : MppBufSlotsImpl} {i : Nat} {s' : MppBufSlotsImpl}
    (h : mpp_buf_slot_set_display s i = some s') :
    s'.display = s.display.filter (fun j => j ≠ i) ++ [i] := by
  rw [mpp_buf_slot_set_display] at h
  by_cases hi : i < s.count
  · rw [if_pos hi] at h
    obtain rfl := Option.some_injective _ h
    rfl
  · rw [if_neg hi] at h
    cases h

theorem get_display_display {s : MppBufSlotsImpl} {s' : MppBufSlotsImpl}
    {r : Option (Option MppFrameImpl)}
    (h : mpp_buf_slot_get_display s = some (s', r)) :
    (s.display = [] ∧ s' = s ∧ r = none) ∨
    (∃ i rest, s.display = i :: rest ∧ s'.display = rest ∧ r ≠ none) := by
  cases hd : s.display with
  | nil =>
    rw [mpp_buf_slot_get_display, hd] at h
    have h' : (some (s, (none : Option (Option MppFrameImpl)))) = some (s', r) := h
    injection h' with hp
    injection hp with hs hr
    exact Or.inl ⟨rfl, hs.symm, hr.symm⟩
  | cons i rest =>
    rw [mpp_buf_slot_get_display, hd] at h
    simp only [] at h
    split at h
    · cases h
    · split at h
      · split at h
        · cases h
        · injection h with hp
          injection hp with hs hr
          refine Or.inr ⟨i, rest, rfl, by rw [← hs], ?_⟩
          rw [← hr]
          intro hc
          cases hc
      · cases h

/-- A filtered display list with its index appended stays duplicate-free. -/
theorem nodup_filter_append {l : List Nat} (i : Nat) (hn : l.Nodup) :
    (l.filter (fun j => j ≠ i) ++ [i]).Nodup := by
  rw [List.nodup_append]
  refine ⟨hn.filter _, List.nodup_singleton i, ?_⟩
  intro x hx hxi
  rw [List.mem_singleton] at hxi
  subst hxi
  have := (List.mem_filter.mp hx).2
  simp at this

/-- Every public operation preserves duplicate-freedom of the display list. -/
theorem step_preserves_nodup {s s' : MppBufSlotsImpl} (h : BufSlotStep s s')
    (hn : s.display.Nodup) : s'.display.Nodup := by
  cases h with
  | get_unused a r heq =>
    have h1 : (mpp_buf_slot_get_unused s).1 = s' := by rw [heq]
    rw [← h1, get_unused_display]
    exact hn
  | set_ref i s2 heq => rw [set_ref_display heq]; exact hn
  | clr_ref i s2 heq => rw [clr_ref_display heq]; exact hn
  | set_decoding i f s2 heq => rw [set_decoding_display heq]; exact hn
  | clr_decoding i s2 heq => rw [clr_decoding_display heq]; exact hn
  | set_buffer i b s2 heq => rw [set_buffer_display heq]; exact hn
  | set_display i s2 heq =>
    rw [set_display_display heq]
    exact nodup_filter_append i hn
  | get_display s2 r heq =>
    rcases get_display_display heq with ⟨h1, h2, h3⟩ | ⟨i, rest, h1, h2, h3⟩
    · rw [h2]; exact hn
    · rw [h2]
      have hn2 := hn
      rw [h1] at hn2
      exact hn2.of_cons

/-- The display list of any reachable state is duplicate-free. -/
theorem reachable_display_nodup {c sz : Nat} {s : MppBufSlotsImpl}
    (h : BufSlotReachable c sz s) : s.display.Nodup := by
  obtain ⟨s0, hsetup, hsteps⟩ := h
  rw [mpp_buf_slot_setup] at hsetup
  obtain rfl := Option.some_injective _ hsetup
  induction hsteps with
  | refl => exact List.nodup_nil
  | tail hab hbc ih => exact step_preserves_nodup hbc ih

/-- The display-queue behavior claimed by C6 at a state `s`: the queue has no
duplicate index; `set_display` adds the Display claim and moves the index to
the tail (removing any earlier occurrence), keeping the queue duplicate-free;
`get_display` dequeues exactly the head. -/
def DisplayQueuePost (s : MppBufSlotsImpl) : Prop :=
  s.display.Nodup ∧
  (∀ i s', mpp_buf_slot_set_display s i = some s' →
     s'.display = s.display.filter (fun j => j ≠ i) ++ [i] ∧
     s'.display.getLast? = some i ∧
     s'.display.Nodup ∧
     (∀ e, (s.slots.getD []).get? i = some e →
        (s'.slots.getD []).get? i =
          some { e with status := e.status ||| MPP_SLOT_USED_AS_DISPLAY })) ∧
  (∀ s' r, mpp_buf_slot_get_display s = some (s', some r) →
     ∃ i rest, s.display = i :: rest ∧ s'.display = rest)

/--
C6: in every reachable state the display queue contains no slot index twice;
`mpp_buf_slot_set_display` adds the Display claim and, if the index is
already queued, removes it from its current position before appending it to
the tail; `mpp_buf_slot_get_display` dequeues exactly the head, i.e. strict
FIFO order of the most recent `set_display` calls.
-/
theorem C6_display_queue_nodup_fifo (c sz : Nat) (s : MppBufSlotsImpl)
    (h : BufSlotReachable c sz s) : DisplayQueuePost s := by
  have hn := reachable_display_nodup h
  refine ⟨hn, ?_, ?_⟩
  · intro i s' heq
    have hdisp := set_display_display heq
    refine ⟨hdisp, ?_, ?_, ?_⟩
    · rw [hdisp]
      exact List.getLast?_concat _
    · rw [hdisp]
      exact nodup_filter_append i hn
    · intro e hge
      rw [mpp_buf_slot_set_display] at heq
      by_cases hi : i < s.count
      · rw [if_pos hi] at heq
        obtain rfl := Option.some_injective _ heq
        simp only [Option.getD_some, listUpdate_get?_self, hge, Option.map_some']
      · rw [if_neg hi] at heq
        cases heq
  · intro s' r heq
    rcases get_display_display heq with ⟨h1, h2, h3⟩ | ⟨i, rest, h1, h2, h3⟩
    · cases h3
    · exact ⟨i, rest, h1, h2⟩

/-- Concrete states for the C6 witness: a fresh 4-slot pool where slot 2 and
then slot 0 are marked for display (queue `[2, 0]`, Scenario D order). -/
def c6_s0 : MppBufSlotsImpl :=
  (mpp_buf_slot_setup mpp_buf_slot_init 4 1024 0).getD mpp_buf_slot_init

def c6_s1 : MppBufSlotsImpl :=
  (mpp_buf_slot_set_display c6_s0 2).getD mpp_buf_slot_init

def c6_s2 : MppBufSlotsImpl :=
  (mpp_buf_slot_set_display c6_s1 0).getD mpp_buf_slot_init

/-- Witness for C6 at the concrete reachable state with display queue
`[2, 0]`. -/
theorem C6_display_queue_witness : DisplayQueuePost c6_s2 :=
  C6_display_queue_nodup_fifo 4 1024 c6_s2
    ⟨c6_s0, by decide,
     Relation.ReflTransGen.tail
       (Relation.ReflTransGen.tail Relation.ReflTransGen.refl
         (BufSlotStep.set_display c6_s0 2 c6_s1 (by decide)))
       (BufSlotStep.set_display c6_s1 0 c6_s2 (by decide))⟩
